import Mathlib

/-!
Verification of the printdebug repository (welbornprod/printdebug).

This file gives a shallow embedding, in Lean 4, of the core of
`printdebug/tools.py` (version 0.3.5) and of the legacy module
`printdebug/__init__.py` (version 0.1.0), and proves the testable
properties of the natural-language specification against it.

Modelling conventions:
- A Python stack frame is a `Frame` record (code filename, code name,
  line number).  A frame *reference* (a frame object or `None`) is a
  `List Frame`: the head is the referenced frame and the tail is its
  chain of parents (`f_back`); the empty list models `None`.
- Each embedded function that inspects the stack receives the chain of
  its caller (head = the immediate caller's frame).  A call pushes the
  callee's own frame in front, which models `inspect.currentframe()`.
- Python exceptions are the error side of `Except PyErr`.
- Machine output (`print`) is modelled as a list of `(stream, text)`
  pairs, where streams are numbered (1 = sys.stdout, 2 = sys.stderr)
  and `text` is the exact character sequence written.
- Mutable state (the `debug.continued` dict, the module `_enabled` flag,
  `DebugPrinter` instances) is passed and returned explicitly.
-/

namespace PrintDebug

/-- Kinds of Python exceptions that the embedded code can raise.
`debugNotEnabled` models the `DebugNotEnabled(ValueError)` class of
`tools.py`. -/
inductive PyErr where
  | valueError (msg : String)
  | attributeError (msg : String)
  | typeError (msg : String)
  | debugNotEnabled
  deriving DecidableEq, Repr

/-- Boolean test distinguishing `ValueError` from the other exception
kinds.  `DebugNotEnabled` is a `ValueError` subclass in the source, so
it counts as one. -/
def PyErr.isValueError : PyErr → Bool
  | .valueError _ => true
  | .debugNotEnabled => true
  | _ => false

/-- A Python stack frame: the fields of `frame.f_code` and `frame.f_lineno`
that the repository reads. -/
structure Frame where
  co_filename : String
  co_name : String
  f_lineno : Nat
  deriving DecidableEq, Repr

/-- The frame that models a function of `tools.py` itself being on the
stack (its line number is irrelevant to every embedded computation). -/
def tools_frame (name : String) : Frame :=
  ⟨"printdebug/tools.py", name, 0⟩

/-- `LineInfo` of `tools.py`: where a debug print came from. -/
structure LineInfo where
  filename : String
  name : String
  lineno : Nat
  deriving DecidableEq, Repr

/-- `LineInfo.from_frame`: construct a `LineInfo` from a frame. -/
def LineInfo.from_frame (f : Frame) : LineInfo :=
  ⟨f.co_filename, f.co_name, f.f_lineno⟩

/-- `_ensure_level` of `tools.py`: `abs(level)`, defaulting to 0 when
`abs` fails with `TypeError` (our levels are integers, so the `abs`
branch is the one taken). -/
def ensure_level (level : Int) : Nat :=
  level.natAbs

/-- The message of the `ValueError` raised by `get_frame`. -/
def frame_err_msg : String :=
  "`level` is too large, there is no frame."

/-- The walking loop of `get_frame` (`tools.py`).  `n` counts the
remaining iterations of `while level > -1`; each iteration first checks
`if frame is None: raise ValueError`, then steps `frame = frame.f_back`.
At `n = 0` the loop has ended and the final
`if frame is None: raise ValueError` check runs. -/
def frame_walk : Nat → List Frame → Except PyErr (Frame × List Frame)
  | 0, [] => .error (.valueError frame_err_msg)
  | 0, f :: rest => .ok (f, rest)
  | _ + 1, [] => .error (.valueError frame_err_msg)
  | n + 1, _ :: rest => frame_walk n rest

/-- `get_frame` of `tools.py`: from the current frame (the pushed
`get_frame` frame itself), walk back `ensure_level level + 1` times,
raising `ValueError` whenever the walk runs off the stack.  `stack` is
the frame chain of the caller of `get_frame`. -/
def get_frame (stack : List Frame) (level : Int) : Except PyErr (Frame × List Frame) :=
  frame_walk (ensure_level level + 1) (tools_frame "get_frame" :: stack)

/-- `get_lineinfo` of `tools.py`: `LineInfo.from_frame(get_frame(level=level + 1))`.
The `+ 1` accounts for the frame of `get_lineinfo` itself, which is
pushed in front of the caller's chain `stack`. -/
def get_lineinfo (stack : List Frame) (level : Int) : Except PyErr LineInfo :=
  (get_frame (tools_frame "get_lineinfo" :: stack) (level + 1)).map
    (fun fr => LineInfo.from_frame fr.1)

/-- The walking loop of the legacy `get_lineinfo` of `__init__.py`
(version 0.1.0).  The loop body is `frame = frame.f_back; level -= 1`
with no `None` check: stepping from `None` is an `AttributeError`. -/
def init_walk : Nat → List Frame → Except PyErr (List Frame)
  | 0, fr => .ok fr
  | _ + 1, [] => .error (.attributeError "NoneType object has no attribute f_back")
  | n + 1, _ :: rest => init_walk n rest

/-- The legacy `get_lineinfo` of `__init__.py`: walks `abs(level) + 1`
times with no `None` checks, then reads `frame.f_code` /
`frame.f_lineno`, which is an `AttributeError` when the walk ended on
`None`. -/
def init_get_lineinfo (stack : List Frame) (level : Int) : Except PyErr LineInfo :=
  match init_walk (ensure_level level + 1)
      (Frame.mk "printdebug/__init__.py" "get_lineinfo" 0 :: stack) with
  | .error e => .error e
  | .ok [] => .error (.attributeError "NoneType object has no attribute f_code")
  | .ok (f :: _) => .ok (LineInfo.from_frame f)

theorem frame_walk_ok (stack : List Frame) (d : Nat) (h : d < stack.length) :
    frame_walk d stack = .ok (stack.get ⟨d, h⟩, stack.drop (d + 1)) := by
  induction d generalizing stack with
  | zero =>
    cases stack with
    | nil => simp at h
    | cons f rest => simp [frame_walk]
  | succ n ih =>
    cases stack with
    | nil => simp at h
    | cons f rest =>
      simp only [frame_walk, List.length_cons, Nat.succ_lt_succ_iff] at h ⊢
      exact ih rest h

theorem frame_walk_err (stack : List Frame) (d : Nat) (h : stack.length ≤ d) :
    frame_walk d stack = .error (.valueError frame_err_msg) := by
  induction d generalizing stack with
  | zero =>
    cases stack with
    | nil => rfl
    | cons f rest => simp at h
  | succ n ih =>
    cases stack with
    | nil => rfl
    | cons f rest =>
      simp only [List.length_cons, Nat.succ_le_succ_iff] at h
      exact ih rest h

theorem get_lineinfo_ok (stack : List Frame) (d : Nat) (h : d < stack.length) :
    get_lineinfo stack d = .ok (LineInfo.from_frame (stack.get ⟨d, h⟩)) := by
  have hcast : ensure_level ((d : Int) + 1) = d + 1 := by
    simp only [ensure_level]
    omega
  have hlen : d + 2 < (tools_frame "get_frame" :: tools_frame "get_lineinfo" :: stack).length := by
    simp [Nat.succ_lt_succ_iff, h]
  simp only [get_lineinfo, get_frame, hcast]
  rw [frame_walk_ok _ (d + 2) hlen]
  simp [Except.map]

theorem get_lineinfo_err (stack : List Frame) (d : Nat) (h : stack.length ≤ d) :
    get_lineinfo stack d = .error (.valueError frame_err_msg) := by
  have hcast : ensure_level ((d : Int) + 1) = d + 1 := by
    simp only [ensure_level]
    omega
  have hlen : (tools_frame "get_frame" :: tools_frame "get_lineinfo" :: stack).length ≤ d + 2 := by
    simpa using h
  simp only [get_lineinfo, get_frame, hcast]
  rw [frame_walk_err _ (d + 2) hlen]
  simp [Except.map]

theorem init_walk_le (stack : List Frame) (d : Nat) (h : d ≤ stack.length) :
    init_walk d stack = .ok (stack.drop d) := by
  induction d generalizing stack with
  | zero => simp [init_walk]
  | succ n ih =>
    cases stack with
    | nil => simp at h
    | cons f rest =>
      simp only [List.length_cons, Nat.succ_le_succ_iff] at h
      simpa [init_walk] using ih rest h

theorem init_walk_gt (stack : List Frame) (d : Nat) (h : stack.length < d) :
    init_walk d stack = .error (.attributeError "NoneType object has no attribute f_back") := by
  induction d generalizing stack with
  | zero => simp at h
  | succ n ih =>
    cases stack with
    | nil => rfl
    | cons f rest =>
      simp only [List.length_cons, Nat.succ_lt_succ_iff] at h
      simpa [init_walk] using ih rest h

theorem init_get_lineinfo_ok (stack : List Frame) (d : Nat) (h : d < stack.length) :
    init_get_lineinfo stack d = .ok (LineInfo.from_frame (stack.get ⟨d, h⟩)) := by
  have hcast : ensure_level ((d : Int)) = d := by
    simp [ensure_level]
  have hle : d + 1 ≤ (Frame.mk "printdebug/__init__.py" "get_lineinfo" 0 :: stack).length := by
    simp only [List.length_cons]
    omega
  simp only [init_get_lineinfo, hcast]
  rw [init_walk_le _ (d + 1) hle]
  simp only [List.drop_succ_cons]
  rw [List.drop_eq_getElem_cons h]
  simp

theorem init_get_lineinfo_err (stack : List Frame) (d : Nat) (h : stack.length ≤ d) :
    ∃ m, init_get_lineinfo stack d = .error (.attributeError m) := by
  have hcast : ensure_level ((d : Int)) = d := by
    simp [ensure_level]
  rcases Nat.eq_or_lt_of_le h with heq | hlt
  · refine ⟨"NoneType object has no attribute f_code", ?_⟩
    have hle : d + 1 ≤ (Frame.mk "printdebug/__init__.py" "get_lineinfo" 0 :: stack).length := by
      simp only [List.length_cons]
      omega
    simp only [init_get_lineinfo, hcast]
    rw [init_walk_le _ (d + 1) hle]
    have : stack.drop d = [] := List.drop_eq_nil_of_le (le_of_eq heq)
    simp [this]
  · refine ⟨"NoneType object has no attribute f_back", ?_⟩
    have hgt : (Frame.mk "printdebug/__init__.py" "get_lineinfo" 0 :: stack).length < d + 1 := by
      simp only [List.length_cons]
      omega
    simp only [init_get_lineinfo, hcast]
    rw [init_walk_gt _ (d + 1) hgt]

/-! ## String helpers (Python `str` methods used by the emitter) -/

/-- A run of `n` spaces, modelling Python `' ' * n`. -/
def spaces (n : Nat) : String :=
  String.mk (List.replicate n ' ')

/-- Python `str.ljust(w)`: pad on the right with spaces up to width `w`. -/
def pyLjust (s : String) (w : Nat) : String :=
  s ++ spaces (w - s.length)

/-- Python format spec `>w` (right-align in a field of width `w`), as used
by `default_format`. -/
def pyRjust (s : String) (w : Nat) : String :=
  spaces (w - s.length) ++ s

/-- Python `os.path.split(path)[-1]`: the last `/`-separated component. -/
def pyBasename (s : String) : String :=
  (s.splitOn "/").getLastD s

/-- A line-info format: a function from (filename, lineno, name) to the
rendered prefix text.  This models a Python format-string template
applied with `fmt.format(filename=..., lineno=..., name=...)`. -/
abbrev Fmt := String → Nat → String → String

/-- The rendering of `default_format` of `tools.py`:
the template is the string `{filename}:{lineno:>5} {name:>25}(): `. -/
def default_format : Fmt := fun filename lineno name =>
  filename ++ ":" ++ pyRjust (toString lineno) 5 ++ " " ++ pyRjust name 25 ++ "(): "

/-- An ANSI color escape wrapper, modelling `colr.Colr(s, fore=color)`:
the text surrounded by a color escape code and a reset code. -/
def colrWrap (code : String) (s : String) : String :=
  "\x1b[" ++ code ++ "m" ++ s ++ "\x1b[0m"

/-- The rendering of `default_colr_format` of `tools.py`: the same fields
as `default_format`, with the filename yellow (33), the line number blue
(34) and the function name magenta (35). -/
def default_colr_format : Fmt := fun filename lineno name =>
  colrWrap "33" (filename ++ ":") ++ colrWrap "34" (pyRjust (toString lineno) 5 ++ " ") ++
    colrWrap "35" (pyRjust name 25) ++ "(): "

mutual

/-- Remove ANSI escape sequences from a character list: an escape
character starts a sequence that runs up to and including the next `m`;
everything else is kept. -/
def stripEscAux : List Char → List Char
  | [] => []
  | c :: rest => if c = '\x1b' then dropEscAux rest else c :: stripEscAux rest

/-- Skip the rest of an ANSI escape sequence (up to and including the
final `m`), then resume stripping. -/
def dropEscAux : List Char → List Char
  | [] => []
  | c :: rest => if c = 'm' then stripEscAux rest else dropEscAux rest

end

/-- Colr `s.stripped()`: the text with every ANSI escape sequence removed. -/
def stripEscapes (s : String) : String :=
  String.mk (stripEscAux s.data)

/-! ## Continuation state (the `continued` dicts) -/

/-- The `continued` dict: a finite map from a stream to whether the last
write to it ended without a newline.  Keyed by stream number. -/
abbrev ContMap := List (Nat × Bool)

/-- Python `continued.get(file, False)`. -/
def contGet (m : ContMap) (k : Nat) : Bool :=
  (m.lookup k).getD false

/-- Python `continued[file] = v` (replace the binding or append it). -/
def contSet (m : ContMap) (k : Nat) (v : Bool) : ContMap :=
  match m with
  | [] => [(k, v)]
  | (k2, v2) :: rest => if k2 = k then (k, v) :: rest else (k2, v2) :: contSet rest k v

theorem contGet_contSet (m : ContMap) (k : Nat) (v : Bool) :
    contGet (contSet m k v) k = v := by
  induction m with
  | nil => simp [contSet, contGet, List.lookup]
  | cons p rest ih =>
    obtain ⟨k2, v2⟩ := p
    simp only [contSet]
    split
    · simp [contGet, List.lookup]
    · next hne =>
      have hbeq : (k == k2) = false := beq_eq_false_iff_ne.mpr (fun hh => hne hh.symm)
      simp only [contGet, List.lookup, hbeq]
      exact ih

/-- The initial value of the module-level `debug.continued` dict:
`{sys.stderr: False}` (stream 2 is stderr). -/
def debug_continued_init : ContMap := [(2, false)]

theorem contGet_init (s : Nat) : contGet debug_continued_init s = false := by
  by_cases h : s = 2
  · simp [debug_continued_init, contGet, List.lookup, h]
  · have hbeq : (s == 2) = false := beq_eq_false_iff_ne.mpr h
    simp [debug_continued_init, contGet, List.lookup, hbeq]

/-! ## The module-level emitter `debug` of `tools.py` -/

/-- Python `end.endswith(chr(10))` as used by both emitters: whether the
last character of the terminator is a newline. -/
def ends_with_newline (s : String) : Bool :=
  match s.data.getLast? with
  | some c => c = '\n'
  | none => false

/-- The function name used in the prefix: `parent.__class__.__name__ + '.' + info.name`
when a parent was given, else `info.name`.  The parent object is modelled
by its class name. -/
def debug_func_name (parent : Option String) (info : LineInfo) : String :=
  match parent with
  | some p => p ++ "." ++ info.name
  | none => info.name

/-- The rendered line-info prefix:
`fmt.format(filename=fname, lineno=info.lineno, name=func).ljust(ljustwidth)`,
with `fname` the basename of the file when requested. -/
def render_lineinfo (fmt : Fmt) (ljustwidth : Nat) (usebasename : Bool)
    (parent : Option String) (info : LineInfo) : String :=
  pyLjust
    (fmt (if usebasename then pyBasename info.filename else info.filename)
      info.lineno (debug_func_name parent info))
    ljustwidth

/-- The keyword arguments of the module-level `debug()` that the embedding
tracks.  `endOpt = none` models `end` not being passed (so `print`'s
default newline applies); likewise `file = none` defaults to stderr. -/
structure DebugKw where
  file : Option Nat
  parent : Option String
  level : Int
  fmt : Fmt
  ljustwidth : Nat
  align : Bool
  basename : Bool
  endOpt : Option String
  sep : String

/-- The default keyword arguments of `debug()` in `tools.py`:
`level=0`, `fmt=default_format`, `ljustwidth=40`, `align=False`,
`basename=True`, `sep=' '`. -/
def DebugKw.default : DebugKw :=
  ⟨none, none, 0, default_format, 40, false, true, none, " "⟩

/-- The module-level `debug()` of `tools.py`.  Inputs: the module flag
`_enabled`, the attribute `debug.should_raise`, the `debug.continued`
dict, the caller's frame chain, the positional arguments (already
stringified), and the keyword arguments.  Output: the new `continued`
dict together with the writes performed, or the exception raised. -/
def debug (genabled should_raise : Bool) (cont : ContMap) (stack : List Frame)
    (args : List String) (kw : DebugKw) : Except PyErr (ContMap × List (Nat × String)) :=
  if args.isEmpty then .ok (cont, [])
  else if !genabled then
    if should_raise then .error .debugNotEnabled else .ok (cont, [])
  else
    let file := kw.file.getD 2
    let backlevel : Nat := ensure_level kw.level + 1
    match get_lineinfo (tools_frame "debug" :: stack) backlevel with
    | .error e => .error e
    | .ok info =>
      let lineinfo := render_lineinfo kw.fmt kw.ljustwidth kw.basename kw.parent info
      let endStr := kw.endOpt.getD "\n"
      let willcontinue := !(ends_with_newline endStr)
      if kw.align || contGet cont file then
        let pargs :=
          if kw.align then
            match args with
            | [] => []
            | a :: rest => (spaces lineinfo.length ++ a) :: rest
          else args
        .ok (contSet cont file willcontinue, [(file, String.intercalate kw.sep pargs ++ endStr)])
      else
        .ok (contSet cont file willcontinue,
          [(file, lineinfo ++ String.intercalate kw.sep args ++ endStr)])

/-! ## `DebugPrinter` and `DebugColrPrinter` -/

/-- A `DebugPrinter` instance.  The overridable methods `lineinfo_len`
and `transform_text` are stored as function fields, which models the
subclass overriding of `DebugColrPrinter`. -/
structure DebugPrinter where
  fmt : Fmt
  ljustwidth : Nat
  basename : Bool
  file : Nat
  continued : ContMap
  enabled : Bool
  should_raise : Bool
  lineinfo_len : String → Nat
  transform_text : String → String

/-- `DebugPrinter.__init__`: `fmt or default_format`, `file or sys.stderr`,
`continued = {self.file: False}`, `_enabled = True`; the base class
`lineinfo_len` is `len` and `transform_text` is the identity (plain
`str`). -/
def DebugPrinter.init (fmt : Option Fmt) (ljustwidth : Nat) (usebasename : Bool)
    (file : Option Nat) (should_raise : Bool) : DebugPrinter :=
  let f := file.getD 2
  ⟨fmt.getD default_format, ljustwidth, usebasename, f, [(f, false)], true, should_raise,
    String.length, id⟩

/-- Replace the `continued` dict of a printer. -/
def DebugPrinter.setCont (self : DebugPrinter) (c : ContMap) : DebugPrinter :=
  ⟨self.fmt, self.ljustwidth, self.basename, self.file, c, self.enabled, self.should_raise,
    self.lineinfo_len, self.transform_text⟩

/-- The keyword arguments of `DebugPrinter.debug()` that the embedding
tracks: `file`, `parent`, `level`, `transform`, `align`, `end`, `sep`. -/
structure PKw where
  file : Option Nat
  parent : Option String
  level : Int
  transform : Option (String → String)
  align : Bool
  endOpt : Option String
  sep : String

/-- The default keyword arguments of `DebugPrinter.debug()`. -/
def PKw.default : PKw :=
  ⟨none, none, 0, none, false, none, " "⟩

/-- `DebugPrinter.debug()` of `tools.py`.  Inputs: the instance, the
module flag `_enabled`, the caller's frame chain, the positional
arguments and the keyword arguments.  Output: the updated instance and
the writes performed, or the exception raised. -/
def DebugPrinter.debug (self : DebugPrinter) (genabled : Bool) (stack : List Frame)
    (args : List String) (kw : PKw) : Except PyErr (DebugPrinter × List (Nat × String)) :=
  if args.isEmpty then .ok (self, [])
  else if !(self.enabled && genabled) then
    if self.should_raise then .error .debugNotEnabled else .ok (self, [])
  else
    let file := kw.file.getD self.file
    let backlevel : Nat := ensure_level kw.level + 1
    match get_lineinfo (tools_frame "DebugPrinter.debug" :: stack) backlevel with
    | .error e => .error e
    | .ok info =>
      let lineinfo := render_lineinfo self.fmt self.ljustwidth self.basename kw.parent info
      let transfunc := kw.transform.getD self.transform_text
      let text := transfunc (String.intercalate kw.sep args)
      let endStr := kw.endOpt.getD "\n"
      let willcontinue := !(ends_with_newline endStr)
      if kw.align || contGet self.continued file then
        let text2 :=
          if kw.align then spaces (self.lineinfo_len lineinfo) ++ text else text
        .ok (self.setCont (contSet self.continued file willcontinue), [(file, text2 ++ endStr)])
      else
        .ok (self.setCont (contSet self.continued file willcontinue),
          [(file, lineinfo ++ text ++ endStr)])

/-- `DebugColrPrinter.lineinfo_len`: `len(s.stripped())`, the length of
the prefix with its escape codes removed (the prefix of a colr printer
is a `Colr`, which has `stripped`). -/
def colr_lineinfo_len (s : String) : Nat :=
  (stripEscapes s).length

/-- `DebugColrPrinter.__init__`: a `DebugPrinter` whose default format is
`default_colr_format`, whose `lineinfo_len` strips escape codes and
whose `transform_text` colorizes the text green (code 32). -/
def DebugColrPrinter.init (fmt : Option Fmt) (ljustwidth : Nat) (usebasename : Bool)
    (file : Option Nat) (should_raise : Bool) : DebugPrinter :=
  let f := file.getD 2
  ⟨fmt.getD default_colr_format, ljustwidth, usebasename, f, [(f, false)], true, should_raise,
    colr_lineinfo_len, colrWrap "32"⟩

/-! ## Python values and the recursive formatter `object_str` -/

/-- The shapes of Python values that `object_str` dispatches on:
strings, bytes (their text content), integers, dicts (entry lists),
lists (covering any ordered iterable), sets (an iterable whose `<` is
the subset order), and a non-iterable fallback carrying its `str()`
text. -/
inductive PyVal where
  | vstr (s : String)
  | vbytes (s : String)
  | vint (n : Int)
  | vdict (entries : List (PyVal × PyVal))
  | vlist (items : List PyVal)
  | vset (items : List PyVal)
  | vother (s : String)
  deriving Repr

mutual

/-- Python `==` on the modelled values.  Containers compare elementwise,
other shapes structurally; values of different shapes are unequal.
(Python set equality is order-insensitive; the model compares set
values elementwise, which is only observable when a set value is itself
an element being compared — a case no formatter path exercises.) -/
def pyBeq : PyVal → PyVal → Bool
  | .vstr a, .vstr b => a == b
  | .vbytes a, .vbytes b => a == b
  | .vint a, .vint b => a == b
  | .vdict a, .vdict b => pyBeqPairs a b
  | .vlist a, .vlist b => pyBeqList a b
  | .vset a, .vset b => pyBeqList a b
  | .vother a, .vother b => a == b
  | _, _ => false

/-- Elementwise `==` of two value lists. -/
def pyBeqList : List PyVal → List PyVal → Bool
  | [], [] => true
  | a :: as, b :: bs => pyBeq a b && pyBeqList as bs
  | _, _ => false

/-- Elementwise `==` of two entry lists (keys and values). -/
def pyBeqPairs : List (PyVal × PyVal) → List (PyVal × PyVal) → Bool
  | [], [] => true
  | (k1, v1) :: as, (k2, v2) :: bs => pyBeq k1 k2 && pyBeq v1 v2 && pyBeqPairs as bs
  | _, _ => false

end

/-- Python `x in ys` (membership by `==`). -/
def pyMem (x : PyVal) : List PyVal → Bool
  | [] => false
  | y :: ys => pyBeq x y || pyMem x ys

/-- Containment of every element of the first list in the second
(Python `xs <= ys` on sets). -/
def pyMemAll : List PyVal → List PyVal → Bool
  | [], _ => true
  | x :: xs, ys => pyMem x ys && pyMemAll xs ys

/-- Lexicographic strict order on character lists, by code point. -/
def charsLt : List Char → List Char → Bool
  | [], [] => false
  | [], _ :: _ => true
  | _ :: _, [] => false
  | a :: as, b :: bs => if a = b then charsLt as bs else decide (a.toNat < b.toNat)

/-- Python `a < b` on strings (and on the modelled bytes): lexicographic
by code point, as a direct recursion over the character lists. -/
def pyStrLt (a b : String) : Bool :=
  charsLt a.data b.data

mutual

/-- Python `a < b` on the modelled values: defined within numbers,
strings and bytes; lexicographic between lists; proper-subset between
sets; a `TypeError` (the error case) between different shapes and on
dicts and opaque objects. -/
def pyLt (a b : PyVal) : Except Unit Bool :=
  match a, b with
  | .vint a, .vint b => .ok (decide (a < b))
  | .vstr a, .vstr b => .ok (pyStrLt a b)
  | .vbytes a, .vbytes b => .ok (pyStrLt a b)
  | .vlist a, .vlist b => pyLtList a b
  | .vset a, .vset b => .ok (pyMemAll a b && !pyMemAll b a)
  | _, _ => .error ()
termination_by structural a

/-- Python list `<`: skip equal heads, then compare the first differing
elements; a strict prefix is smaller. -/
def pyLtList (as : List PyVal) (bs : List PyVal) : Except Unit Bool :=
  match as, bs with
  | [], [] => .ok false
  | [], _ :: _ => .ok true
  | _ :: _, [] => .ok false
  | a :: as2, b :: bs2 => if pyBeq a b then pyLtList as2 bs2 else pyLt a b
termination_by structural as

end

/-- Insert `x` into the already-sorted `ys`, before the first strictly
greater element (so that elements equal to `x` keep their earlier
position: stability).  Propagates the `TypeError` of an unsupported
comparison. -/
def pyInsert (x : PyVal) : List PyVal → Except Unit (List PyVal)
  | [] => .ok [x]
  | y :: ys =>
    match pyLt x y with
    | .error e => .error e
    | .ok true => .ok (x :: y :: ys)
    | .ok false =>
      match pyInsert x ys with
      | .error e => .error e
      | .ok r => .ok (y :: r)

/-- Left-to-right insertion pass of `pySorted`. -/
def pySortedAux : List PyVal → List PyVal → Except Unit (List PyVal)
  | [], acc => .ok acc
  | x :: xs, acc =>
    match pyInsert x acc with
    | .error e => .error e
    | .ok acc2 => pySortedAux xs acc2

/-- Python `sorted(xs)`: a stable sort by `<`, raising `TypeError` (the
error case) when it runs into an unsupported comparison.  (CPython's
timsort is modelled by stable insertion sort; on inputs whose elements
are totally ordered the two agree.) -/
def pySorted (xs : List PyVal) : Except Unit (List PyVal) :=
  pySortedAux xs []

/-- Python `repr(b)` for a bytes value, as printed by the `{!r}` format. -/
def pyBytesRepr (s : String) : String :=
  "b\x27" ++ s ++ "\x27"

/-- Python `str(v)` for the modelled values.  Containers render as a
placeholder: `object_str` only applies `str` to dict keys and to
non-iterable values, and containers are unhashable in Python, so the
placeholder arms are unreachable from `object_str`. -/
def pyStr : PyVal → String
  | .vstr s => s
  | .vbytes s => pyBytesRepr s
  | .vint n => toString n
  | .vother s => s
  | .vdict _ => "<dict>"
  | .vlist _ => "<list>"
  | .vset _ => "<set>"

/-- Python `obj[key]` on a dict modelled as an entry list: the value of
the first entry whose key compares `==` to `key`.  The `KeyError` arm
is unreachable when `key` is drawn from the dict's own keys. -/
def dictGet (entries : List (PyVal × PyVal)) (k : PyVal) : PyVal :=
  match entries with
  | [] => .vother "KeyError"
  | (k2, v) :: rest => if pyBeq k2 k then v else dictGet rest k

mutual

theorem pyBeq_refl : (a : PyVal) → pyBeq a a = true
  | .vstr _ => by simp [pyBeq]
  | .vbytes _ => by simp [pyBeq]
  | .vint _ => by simp [pyBeq]
  | .vother _ => by simp [pyBeq]
  | .vdict es => by simpa [pyBeq] using pyBeqPairs_refl es
  | .vlist xs => by simpa [pyBeq] using pyBeqList_refl xs
  | .vset xs => by simpa [pyBeq] using pyBeqList_refl xs

theorem pyBeqList_refl : (l : List PyVal) → pyBeqList l l = true
  | [] => rfl
  | x :: xs => by simp [pyBeqList, pyBeq_refl x, pyBeqList_refl xs]

theorem pyBeqPairs_refl : (l : List (PyVal × PyVal)) → pyBeqPairs l l = true
  | [] => rfl
  | (k, v) :: rest => by simp [pyBeqPairs, pyBeq_refl k, pyBeq_refl v, pyBeqPairs_refl rest]

end

theorem mem_pyInsert {x : PyVal} {ys r : List PyVal} (h : pyInsert x ys = .ok r)
    {a : PyVal} (ha : a ∈ r) : a = x ∨ a ∈ ys := by
  induction ys generalizing r with
  | nil =>
    simp only [pyInsert, Except.ok.injEq] at h
    subst h
    simpa using ha
  | cons y ys ih =>
    simp only [pyInsert] at h
    cases hlt : pyLt x y with
    | error e => rw [hlt] at h; exact absurd h (by simp)
    | ok b =>
      rw [hlt] at h
      cases b with
      | true =>
        simp only [Except.ok.injEq] at h
        subst h
        rcases List.mem_cons.mp ha with h2 | h2
        · exact .inl h2
        · exact .inr h2
      | false =>
        cases hins : pyInsert x ys with
        | error e => rw [hins] at h; exact absurd h (by simp)
        | ok r2 =>
          rw [hins] at h
          simp only [Except.ok.injEq] at h
          subst h
          rcases List.mem_cons.mp ha with h2 | h2
          · exact .inr (h2 ▸ List.mem_cons_self y ys)
          · rcases ih hins h2 with h1 | h1
            · exact .inl h1
            · exact .inr (List.mem_cons_of_mem y h1)

theorem mem_pySortedAux {xs acc r : List PyVal} (h : pySortedAux xs acc = .ok r)
    {a : PyVal} (ha : a ∈ r) : a ∈ xs ∨ a ∈ acc := by
  induction xs generalizing acc with
  | nil =>
    simp only [pySortedAux, Except.ok.injEq] at h
    subst h
    exact .inr ha
  | cons x xs ih =>
    simp only [pySortedAux] at h
    cases hins : pyInsert x acc with
    | error e => rw [hins] at h; exact absurd h (by simp)
    | ok acc2 =>
      rw [hins] at h
      rcases ih h with h1 | h1
      · exact .inl (List.mem_cons_of_mem x h1)
      · rcases mem_pyInsert hins h1 with h2 | h2
        · exact .inl (h2 ▸ List.mem_cons_self x xs)
        · exact .inr h2

theorem mem_pySorted {xs r : List PyVal} (h : pySorted xs = .ok r)
    {a : PyVal} (ha : a ∈ r) : a ∈ xs := by
  rcases mem_pySortedAux h ha with h1 | h1
  · exact h1
  · simp at h1

/-- The `try: sorted(obj) except TypeError: list(obj)` idiom of
`object_str`: the sorted elements when they are totally orderable,
otherwise the original iteration order. -/
def sortedOrOrig (xs : List PyVal) : List PyVal :=
  match pySorted xs with
  | .ok l => l
  | .error _ => xs

theorem mem_sortedOrOrig {xs : List PyVal} {a : PyVal} (ha : a ∈ sortedOrOrig xs) :
    a ∈ xs := by
  unfold sortedOrOrig at ha
  cases h : pySorted xs with
  | ok l => rw [h] at ha; exact mem_pySorted h ha
  | error e => rw [h] at ha; exact ha

theorem dictGet_sizeOf (entries : List (PyVal × PyVal)) (k : PyVal)
    (h : k ∈ entries.map Prod.fst) : sizeOf (dictGet entries k) < sizeOf entries := by
  induction entries with
  | nil => simp at h
  | cons p rest ih =>
    obtain ⟨k2, v⟩ := p
    simp only [dictGet]
    by_cases hb : pyBeq k2 k
    · rw [if_pos hb]
      simp only [List.cons.sizeOf_spec, Prod.mk.sizeOf_spec]
      omega
    · rw [if_neg hb]
      simp only [List.map_cons, List.mem_cons] at h
      rcases h with h | h
      · exact absurd (h ▸ pyBeq_refl k) hb
      · have := ih h
        simp only [List.cons.sizeOf_spec]
        omega

/-- `object_str` of `tools.py`: the lines of the verbose representation
of a value.  Strings and bytes yield one line; dicts yield, for each key
in `sortedOrOrig` order, a `key:` line followed by the value's lines at
`indent + 4`; other iterables yield their elements' lines in
`sortedOrOrig` order at the same indent; non-iterables yield one
`str(obj)` line.  The generator is modelled by the list of the lines it
yields. -/
def object_str (obj : PyVal) (indent : Nat) : List String :=
  match obj with
  | .vstr s => [spaces indent ++ s]
  | .vbytes s => [spaces indent ++ pyBytesRepr s]
  | .vdict entries =>
    (sortedOrOrig (entries.map Prod.fst)).attach.flatMap fun kp =>
      (spaces indent ++ pyStr kp.val ++ ":") :: object_str (dictGet entries kp.val) (indent + 4)
  | .vlist items =>
    (sortedOrOrig items).attach.flatMap fun ip => object_str ip.val indent
  | .vset items =>
    (sortedOrOrig items).attach.flatMap fun ip => object_str ip.val indent
  | .vint n => [spaces indent ++ pyStr (.vint n)]
  | .vother s => [spaces indent ++ s]
termination_by sizeOf obj
decreasing_by
  · have hk := mem_sortedOrOrig kp.property
    have := dictGet_sizeOf entries kp.val hk
    simp only [PyVal.vdict.sizeOf_spec]
    omega
  · have := List.sizeOf_lt_of_mem (mem_sortedOrOrig ip.property)
    simp only [PyVal.vlist.sizeOf_spec]
    omega
  · have := List.sizeOf_lt_of_mem (mem_sortedOrOrig ip.property)
    simp only [PyVal.vset.sizeOf_spec]
    omega

theorem attach_flatMap {α β : Type} (l : List α) (f : α → List β) :
    l.attach.flatMap (fun x => f x.val) = l.flatMap f := by
  induction l with
  | nil => rfl
  | cons a t ih =>
    simp only [List.attach_cons, List.flatMap_cons, List.flatMap_map]
    exact congrArg (f a ++ ·) ih

theorem object_str_vstr (s : String) (ind : Nat) :
    object_str (.vstr s) ind = [spaces ind ++ s] := by
  unfold object_str
  rfl

theorem object_str_vbytes (s : String) (ind : Nat) :
    object_str (.vbytes s) ind = [spaces ind ++ pyBytesRepr s] := by
  unfold object_str
  rfl

theorem object_str_vint (n : Int) (ind : Nat) :
    object_str (.vint n) ind = [spaces ind ++ pyStr (.vint n)] := by
  unfold object_str
  rfl

theorem object_str_vother (s : String) (ind : Nat) :
    object_str (.vother s) ind = [spaces ind ++ s] := by
  unfold object_str
  rfl

theorem object_str_vdict (entries : List (PyVal × PyVal)) (ind : Nat) :
    object_str (.vdict entries) ind =
      (sortedOrOrig (entries.map Prod.fst)).flatMap fun k =>
        (spaces ind ++ pyStr k ++ ":") :: object_str (dictGet entries k) (ind + 4) := by
  conv_lhs => unfold object_str
  exact attach_flatMap (sortedOrOrig (entries.map Prod.fst))
    (fun k => (spaces ind ++ pyStr k ++ ":") :: object_str (dictGet entries k) (ind + 4))

theorem object_str_vlist (items : List PyVal) (ind : Nat) :
    object_str (.vlist items) ind =
      (sortedOrOrig items).flatMap fun it => object_str it ind := by
  conv_lhs => unfold object_str
  exact attach_flatMap (sortedOrOrig items) (fun it => object_str it ind)

theorem object_str_vset (items : List PyVal) (ind : Nat) :
    object_str (.vset items) ind =
      (sortedOrOrig items).flatMap fun it => object_str it ind := by
  conv_lhs => unfold object_str
  exact attach_flatMap (sortedOrOrig items) (fun it => object_str it ind)

/-! ## `print_object` of `tools.py` -/

/-- An output target as `print_object` sees it: its stream number and
whether it has a `write` attribute. -/
structure PyFile where
  id : Nat
  hasWrite : Bool
  deriving DecidableEq, Repr

/-- `sys.stdout`, the default sink of `print_object` (stream 1). -/
def sys_stdout : PyFile :=
  ⟨1, true⟩

/-- `print_object` of `tools.py`: default the sink to stdout, raise
`TypeError` when the sink has no `write` method (before anything is
written), otherwise print every line of `object_str(obj)` to the sink,
each with a trailing newline. -/
def print_object (obj : PyVal) (file : Option PyFile) (indent : Nat) :
    Except PyErr (List (Nat × String)) :=
  let f := file.getD sys_stdout
  if !f.hasWrite then
    .error (.typeError "file must have a write method")
  else
    .ok ((object_str obj indent).map (fun line => (f.id, line ++ "\n")))

/-! ## Run lemmas for the emitters -/

theorem debug_run (sr : Bool) (cont : ContMap) (stack : List Frame) (a : String)
    (rest : List String) (kw : DebugKw) (h : ensure_level kw.level < stack.length) :
    debug true sr cont stack (a :: rest) kw =
      (if kw.align || contGet cont (kw.file.getD 2) then
        .ok (contSet cont (kw.file.getD 2) (!(ends_with_newline (kw.endOpt.getD "\n"))),
          [(kw.file.getD 2,
            String.intercalate kw.sep
              (if kw.align then
                (spaces (render_lineinfo kw.fmt kw.ljustwidth kw.basename kw.parent
                  (LineInfo.from_frame (stack.get ⟨ensure_level kw.level, h⟩))).length ++ a) :: rest
              else a :: rest) ++ kw.endOpt.getD "\n")])
      else
        .ok (contSet cont (kw.file.getD 2) (!(ends_with_newline (kw.endOpt.getD "\n"))),
          [(kw.file.getD 2,
            render_lineinfo kw.fmt kw.ljustwidth kw.basename kw.parent
              (LineInfo.from_frame (stack.get ⟨ensure_level kw.level, h⟩)) ++
              String.intercalate kw.sep (a :: rest) ++ kw.endOpt.getD "\n")])) := by
  have hlt : ensure_level kw.level + 1 < (tools_frame "debug" :: stack).length := by
    simp only [List.length_cons]
    omega
  have hres := get_lineinfo_ok (tools_frame "debug" :: stack) (ensure_level kw.level + 1) hlt
  simp only [debug, List.isEmpty_cons, Bool.not_true, Bool.false_eq_true, if_false]
  rw [hres]
  rfl

theorem printer_run (self : DebugPrinter) (genabled : Bool) (stack : List Frame)
    (a : String) (rest : List String) (kw : PKw)
    (hen : (self.enabled && genabled) = true)
    (h : ensure_level kw.level < stack.length) :
    self.debug genabled stack (a :: rest) kw =
      (if kw.align || contGet self.continued (kw.file.getD self.file) then
        .ok (self.setCont (contSet self.continued (kw.file.getD self.file)
            (!(ends_with_newline (kw.endOpt.getD "\n")))),
          [(kw.file.getD self.file,
            (if kw.align then
              spaces (self.lineinfo_len (render_lineinfo self.fmt self.ljustwidth self.basename
                  kw.parent (LineInfo.from_frame (stack.get ⟨ensure_level kw.level, h⟩)))) ++
                (kw.transform.getD self.transform_text) (String.intercalate kw.sep (a :: rest))
            else
              (kw.transform.getD self.transform_text) (String.intercalate kw.sep (a :: rest))) ++
              kw.endOpt.getD "\n")])
      else
        .ok (self.setCont (contSet self.continued (kw.file.getD self.file)
            (!(ends_with_newline (kw.endOpt.getD "\n")))),
          [(kw.file.getD self.file,
            render_lineinfo self.fmt self.ljustwidth self.basename kw.parent
              (LineInfo.from_frame (stack.get ⟨ensure_level kw.level, h⟩)) ++
              (kw.transform.getD self.transform_text) (String.intercalate kw.sep (a :: rest)) ++
              kw.endOpt.getD "\n")])) := by
  have hlt : ensure_level kw.level + 1 < (tools_frame "DebugPrinter.debug" :: stack).length := by
    simp only [List.length_cons]
    omega
  have hres := get_lineinfo_ok (tools_frame "DebugPrinter.debug" :: stack)
    (ensure_level kw.level + 1) hlt
  simp only [DebugPrinter.debug, List.isEmpty_cons, hen, Bool.not_true, Bool.false_eq_true,
    if_false]
  rw [hres]
  rfl

/-! ## Claim theorems -/

/-- C1: for every depth `d` within the caller's call stack,
`get_lineinfo(level=d)` returns the CallSite (filename, function name,
line number) of the frame exactly `d` frames above the immediate caller
of the resolving call; and the resolver does so by handing `d + 1` to
`get_frame` over a chain extended with its own frame — the one extra
parent step skips the resolver's own frame. -/
theorem C1_resolve_within_stack (stack : List Frame) (d : Nat) (h : d < stack.length) :
    get_lineinfo stack d = .ok (LineInfo.from_frame (stack.get ⟨d, h⟩)) ∧
    get_lineinfo stack d =
      (get_frame (tools_frame "get_lineinfo" :: stack) ((d : Int) + 1)).map
        (fun fr => LineInfo.from_frame fr.1) :=
  ⟨get_lineinfo_ok stack d h, rfl⟩

/-- Witness for C1: on a two-frame stack, depth 1 resolves to the frame
one above the immediate caller. -/
theorem C1_witness :
    get_lineinfo [Frame.mk "app.py" "inner" 10, Frame.mk "app.py" "outer" 20] 1 =
      .ok (LineInfo.from_frame (Frame.mk "app.py" "outer" 20)) :=
  (C1_resolve_within_stack [Frame.mk "app.py" "inner" 10, Frame.mk "app.py" "outer" 20] 1
    (by decide)).1

/-- C2 counterexample: the claim says frame resolution raises a defined
ValueError when the depth exceeds the stack, but the cited legacy
`get_lineinfo` of `__init__.py` instead crashes with an `AttributeError`
(dereferencing `None`), which is not a ValueError. -/
theorem C2_counterexample :
    init_get_lineinfo [] 0 =
      .error (.attributeError "NoneType object has no attribute f_code") ∧
    PyErr.isValueError (.attributeError "NoneType object has no attribute f_code") = false :=
  ⟨rfl, rfl⟩

/-- C2 (amended): for every depth exceeding the available stack, the
`tools.py` resolver (`get_frame` / `get_lineinfo`) raises the defined,
catchable ValueError; the legacy `__init__.py` `get_lineinfo` instead
fails with an AttributeError from its unguarded `None` dereference. -/
theorem C2_depth_exceeded (stack : List Frame) (d : Nat) (h : stack.length ≤ d) :
    get_lineinfo stack d = .error (.valueError frame_err_msg) ∧
    ∃ m, init_get_lineinfo stack d = .error (.attributeError m) :=
  ⟨get_lineinfo_err stack d h, init_get_lineinfo_err stack d h⟩

/-- Witness for C2 (amended) at the empty caller chain and depth 0. -/
theorem C2_witness :
    get_lineinfo [] 0 = .error (.valueError frame_err_msg) ∧
    ∃ m, init_get_lineinfo [] 0 = .error (.attributeError m) :=
  C2_depth_exceeded [] 0 (by decide)

/-- C5: an emit call with at least one message argument made while
printing is disabled — globally for the module-level `debug`, globally
or per-instance for `DebugPrinter.debug` — writes nothing, leaves the
continuation state unchanged and returns None, unless strict mode
(`should_raise`) was opted into, in which case `DebugNotEnabled` is
raised. -/
theorem C5_disabled (sr : Bool) (cont : ContMap) (stack : List Frame)
    (a : String) (rest : List String) (kw : DebugKw)
    (self : DebugPrinter) (g2 : Bool) (stack2 : List Frame) (a2 : String)
    (rest2 : List String) (kw2 : PKw)
    (hself : (self.enabled && g2) = false) :
    debug false sr cont stack (a :: rest) kw =
      (if sr then .error .debugNotEnabled else .ok (cont, [])) ∧
    DebugPrinter.debug self g2 stack2 (a2 :: rest2) kw2 =
      (if self.should_raise then .error .debugNotEnabled else .ok (self, [])) := by
  constructor
  · rfl
  · simp only [DebugPrinter.debug, List.isEmpty_cons, hself, Bool.not_false, if_true,
      Bool.false_eq_true, if_false]

/-- Witness for C5: the module emitter in strict mode raises while
disabled; a strict printer instance raises when the global flag is
cleared. -/
theorem C5_witness :
    debug false true [] [] ["msg"] DebugKw.default = .error .debugNotEnabled ∧
    DebugPrinter.debug (DebugPrinter.init none 40 true none true) false [] ["msg"] PKw.default =
      .error .debugNotEnabled := by
  have h := C5_disabled true [] [] "msg" [] DebugKw.default
    (DebugPrinter.init none 40 true none true) false [] "msg" [] PKw.default rfl
  exact ⟨h.1, h.2⟩

/-- C9: a configured `print_object` sink lacking a `write` method makes
`print_object` raise the `TypeError` before anything is written (the
check precedes the line loop); a sink with `write` is accepted and every
line is written to it; an absent sink defaults to `sys.stdout`. -/
theorem C9_sink (obj : PyVal) (f : PyFile) (ind : Nat) :
    (f.hasWrite = false →
      print_object obj (some f) ind = .error (.typeError "file must have a write method")) ∧
    (f.hasWrite = true →
      print_object obj (some f) ind =
        .ok ((object_str obj ind).map (fun line => (f.id, line ++ "\n")))) ∧
    print_object obj none ind =
      .ok ((object_str obj ind).map (fun line => (sys_stdout.id, line ++ "\n"))) := by
  refine ⟨fun hw => ?_, fun hw => ?_, ?_⟩
  · simp [print_object, hw]
  · simp [print_object, hw]
  · simp [print_object, sys_stdout]

/-- Witness for C9: a write-less sink is rejected with the `TypeError`;
a writable sink receives the formatted line. -/
theorem C9_witness :
    print_object (.vstr "hello") (some ⟨5, false⟩) 0 =
      .error (.typeError "file must have a write method") ∧
    print_object (.vstr "hello") (some ⟨5, true⟩) 0 = .ok [(5, "hello\n")] := by
  refine ⟨(C9_sink (.vstr "hello") ⟨5, false⟩ 0).1 rfl, ?_⟩
  have h := (C9_sink (.vstr "hello") ⟨5, true⟩ 0).2.1 rfl
  rw [h, object_str_vstr]
  rfl

/-- C10: an emit call with no positional message arguments returns None
immediately: nothing is written, the continuation state (module dict or
printer instance) is unchanged, and no error is raised even when
printing is disabled and strict mode is set, because the empty-arguments
check precedes the disabled check in both `debug` and
`DebugPrinter.debug`. -/
theorem C10_no_args :
    (∀ (genabled sr : Bool) (cont : ContMap) (stack : List Frame) (kw : DebugKw),
      debug genabled sr cont stack [] kw = .ok (cont, [])) ∧
    (∀ (self : DebugPrinter) (genabled : Bool) (stack : List Frame) (kw : PKw),
      DebugPrinter.debug self genabled stack [] kw = .ok (self, [])) :=
  ⟨fun _ _ _ _ _ => rfl, fun _ _ _ _ => rfl⟩

theorem contGet_pair_false (k s : Nat) : contGet [(k, false)] s = false := by
  by_cases h : s = k
  · simp [contGet, List.lookup, h]
  · have hbeq : (s == k) = false := beq_eq_false_iff_ne.mpr h
    simp [contGet, List.lookup, hbeq]

/-- C3: the continuation state machine.  (1) The module `continued` dict
starts FRESH (false) for every stream, and (2) so does the dict of a
fresh `DebugPrinter`; (3) every module emit that proceeds to print sets
the stream's state to whether `end` does not end in a newline, and (4) so
does every printer emit; (5) an emit finding the stream CONTINUED prints
the message with no prefix; (6) two consecutive emits with non-newline
terminators on the same stream yield one prefixed write followed by one
unprefixed write — one visual line with exactly one prefix. -/
theorem C3_continuation_machine :
    (∀ s, contGet debug_continued_init s = false) ∧
    (∀ (fmt : Option Fmt) (w : Nat) (b : Bool) (f : Option Nat) (sr : Bool) (s : Nat),
      contGet (DebugPrinter.init fmt w b f sr).continued s = false) ∧
    (∀ (sr : Bool) (cont : ContMap) (stack : List Frame) (a : String) (rest : List String)
      (kw : DebugKw) (c2 : ContMap) (out : List (Nat × String)),
      ensure_level kw.level < stack.length →
      debug true sr cont stack (a :: rest) kw = .ok (c2, out) →
      contGet c2 (kw.file.getD 2) = !(ends_with_newline (kw.endOpt.getD "\n"))) ∧
    (∀ (self : DebugPrinter) (g : Bool) (stack : List Frame) (a : String) (rest : List String)
      (kw : PKw) (self2 : DebugPrinter) (out : List (Nat × String)),
      (self.enabled && g) = true →
      ensure_level kw.level < stack.length →
      DebugPrinter.debug self g stack (a :: rest) kw = .ok (self2, out) →
      contGet self2.continued (kw.file.getD self.file) =
        !(ends_with_newline (kw.endOpt.getD "\n"))) ∧
    (∀ (sr : Bool) (cont : ContMap) (stack : List Frame) (a : String) (rest : List String)
      (kw : DebugKw) (h : ensure_level kw.level < stack.length),
      kw.align = false →
      contGet cont (kw.file.getD 2) = true →
      debug true sr cont stack (a :: rest) kw =
        .ok (contSet cont (kw.file.getD 2) (!(ends_with_newline (kw.endOpt.getD "\n"))),
          [(kw.file.getD 2, String.intercalate kw.sep (a :: rest) ++ kw.endOpt.getD "\n")])) ∧
    (∀ (sr : Bool) (cont : ContMap) (stack1 stack2 : List Frame) (a1 a2 : String)
      (r1 r2 : List String) (kw1 kw2 : DebugKw)
      (h1 : ensure_level kw1.level < stack1.length)
      (h2 : ensure_level kw2.level < stack2.length),
      kw1.align = false → kw2.align = false →
      kw2.file.getD 2 = kw1.file.getD 2 →
      contGet cont (kw1.file.getD 2) = false →
      ends_with_newline (kw1.endOpt.getD "\n") = false →
      debug true sr cont stack1 (a1 :: r1) kw1 =
        .ok (contSet cont (kw1.file.getD 2) true,
          [(kw1.file.getD 2,
            render_lineinfo kw1.fmt kw1.ljustwidth kw1.basename kw1.parent
              (LineInfo.from_frame (stack1.get ⟨ensure_level kw1.level, h1⟩)) ++
              String.intercalate kw1.sep (a1 :: r1) ++ kw1.endOpt.getD "\n")]) ∧
      debug true sr (contSet cont (kw1.file.getD 2) true) stack2 (a2 :: r2) kw2 =
        .ok (contSet (contSet cont (kw1.file.getD 2) true) (kw1.file.getD 2)
            (!(ends_with_newline (kw2.endOpt.getD "\n"))),
          [(kw1.file.getD 2, String.intercalate kw2.sep (a2 :: r2) ++ kw2.endOpt.getD "\n")])) := by
  refine ⟨contGet_init, ?_, ?_, ?_, ?_, ?_⟩
  · intro fmt w b f sr s
    simp only [DebugPrinter.init]
    exact contGet_pair_false _ _
  · intro sr cont stack a rest kw c2 out hlt heq
    rw [debug_run sr cont stack a rest kw hlt] at heq
    split at heq <;>
    · simp only [Except.ok.injEq, Prod.mk.injEq] at heq
      obtain ⟨hc, -⟩ := heq
      subst hc
      exact contGet_contSet _ _ _
  · intro self g stack a rest kw self2 out hen hlt heq
    rw [printer_run self g stack a rest kw hen hlt] at heq
    split at heq <;>
    · simp only [Except.ok.injEq, Prod.mk.injEq] at heq
      obtain ⟨hc, -⟩ := heq
      subst hc
      exact contGet_contSet _ _ _
  · intro sr cont stack a rest kw h halign hcont
    rw [debug_run sr cont stack a rest kw h, halign, hcont]
    simp only [Bool.false_or, if_true, Bool.false_eq_true, if_false]
  · intro sr cont stack1 stack2 a1 a2 r1 r2 kw1 kw2 h1 h2 halign1 halign2 hf hfresh hend1
    constructor
    · rw [debug_run sr cont stack1 a1 r1 kw1 h1, halign1, hfresh, hend1]
      simp only [Bool.false_or, Bool.not_false, Bool.false_eq_true, if_false]
    · rw [debug_run sr (contSet cont (kw1.file.getD 2) true) stack2 a2 r2 kw2 h2, halign2, hf,
        contGet_contSet]
      simp only [Bool.false_or, if_true, Bool.false_eq_true, if_false]

/-- A frame used by the concrete witnesses. -/
def wframe : Frame :=
  ⟨"app.py", "main", 3⟩

/-- Keyword arguments with a non-newline terminator (`end` is the empty
string) and no alignment, used by the C3 witness. -/
def kw_nonl : DebugKw :=
  ⟨none, none, 0, default_format, 0, false, true, some "", " "⟩

/-- Witness for C3: every stream starts FRESH, and two concrete
partial emits to stderr produce one prefixed write then one unprefixed
write, leaving the stream CONTINUED. -/
theorem C3_witness :
    contGet debug_continued_init 7 = false ∧
    debug true false debug_continued_init [wframe] ["part1"] kw_nonl =
      .ok (contSet debug_continued_init 2 true,
        [(2, render_lineinfo default_format 0 true none (LineInfo.from_frame wframe) ++
          String.intercalate " " ["part1"] ++ "")]) ∧
    debug true false (contSet debug_continued_init 2 true) [wframe] ["part2"] kw_nonl =
      .ok (contSet (contSet debug_continued_init 2 true) 2 (!(ends_with_newline "")),
        [(2, String.intercalate " " ["part2"] ++ "")]) := by
  have h := C3_continuation_machine
  have hcomp := h.2.2.2.2.2 false debug_continued_init [wframe] [wframe] "part1" "part2" [] []
    kw_nonl kw_nonl (by decide) (by decide) rfl rfl rfl rfl rfl
  exact ⟨h.1 7, hcomp.1, hcomp.2⟩

/-- C4 counterexample: with a format whose rendering contains ANSI
escape codes, the module-level `debug` in alignment mode pads by the
full character length of the prefix (11 characters here), not by its
rendered width excluding the non-printing escape characters (2 here),
so the claim's padding rule fails on the cited `debug`. -/
theorem C4_counterexample :
    debug true false [] [Frame.mk "app.py" "main" 3] ["x"]
        ⟨none, none, 0, fun _ _ _ => colrWrap "31" "AB", 0, true, true, none, " "⟩ =
      .ok ([(2, false)], [(2, spaces 11 ++ "x" ++ "\n")]) ∧
    (stripEscapes (pyLjust (colrWrap "31" "AB") 0)).length = 2 ∧
    (pyLjust (colrWrap "31" "AB") 0).length = 11 ∧
    (11 : Nat) ≠ 2 := by
  refine ⟨rfl, rfl, rfl, by decide⟩

/-- C4 (amended): in alignment-only mode no prefix is printed and the
message is padded on the left with spaces equal to the printer's
`lineinfo_len` of the rendered prefix — the full character length for
the module-level `debug` and for `DebugPrinter` (equal to the rendered
width excluding styling characters only when the prefix contains none),
and the escape-stripped width for `DebugColrPrinter` — after which the
stream's state is set to whether the terminator lacked a newline. -/
theorem C4_align_mode
    (sr : Bool) (cont : ContMap) (stack : List Frame) (a : String) (rest : List String)
    (kw : DebugKw) (h : ensure_level kw.level < stack.length)
    (self : DebugPrinter) (g : Bool) (stack2 : List Frame) (a2 : String)
    (rest2 : List String) (kw2 : PKw)
    (hen : (self.enabled && g) = true) (h2 : ensure_level kw2.level < stack2.length)
    (halign : kw.align = true) (halign2 : kw2.align = true) :
    debug true sr cont stack (a :: rest) kw =
      .ok (contSet cont (kw.file.getD 2) (!(ends_with_newline (kw.endOpt.getD "\n"))),
        [(kw.file.getD 2,
          String.intercalate kw.sep
            ((spaces (render_lineinfo kw.fmt kw.ljustwidth kw.basename kw.parent
              (LineInfo.from_frame (stack.get ⟨ensure_level kw.level, h⟩))).length ++ a) ::
              rest) ++ kw.endOpt.getD "\n")]) ∧
    DebugPrinter.debug self g stack2 (a2 :: rest2) kw2 =
      .ok (self.setCont (contSet self.continued (kw2.file.getD self.file)
          (!(ends_with_newline (kw2.endOpt.getD "\n")))),
        [(kw2.file.getD self.file,
          spaces (self.lineinfo_len (render_lineinfo self.fmt self.ljustwidth self.basename
              kw2.parent (LineInfo.from_frame (stack2.get ⟨ensure_level kw2.level, h2⟩)))) ++
            (kw2.transform.getD self.transform_text) (String.intercalate kw2.sep (a2 :: rest2)) ++
            kw2.endOpt.getD "\n")]) ∧
    (∀ (fmt : Option Fmt) (w : Nat) (b : Bool) (f : Option Nat) (sr2 : Bool),
      (DebugPrinter.init fmt w b f sr2).lineinfo_len = String.length) ∧
    (∀ (fmt : Option Fmt) (w : Nat) (b : Bool) (f : Option Nat) (sr2 : Bool),
      (DebugColrPrinter.init fmt w b f sr2).lineinfo_len = colr_lineinfo_len) ∧
    (∀ s, colr_lineinfo_len s = (stripEscapes s).length) := by
  refine ⟨?_, ?_, fun _ _ _ _ _ => rfl, fun _ _ _ _ _ => rfl, fun _ => rfl⟩
  · rw [debug_run sr cont stack a rest kw h, halign]
    simp only [Bool.true_or, if_true]
  · rw [printer_run self g stack2 a2 rest2 kw2 hen h2, halign2]
    simp only [Bool.true_or, if_true]

/-- The colr printer used by the C4 witness: its format renders to a
2-character prefix wrapped in escape codes. -/
def colr_witness_printer : DebugPrinter :=
  DebugColrPrinter.init (some (fun _ _ _ => colrWrap "31" "AB")) 0 true none false

/-- Witness for C4 (amended): the module emitter pads by the raw prefix
length; the colr printer pads by the escape-stripped width (2 columns
for an 11-character escape-wrapped prefix). -/
theorem C4_witness :
    debug true false [] [wframe] ["x"]
        ⟨none, none, 0, default_format, 0, true, true, some "", " "⟩ =
      .ok ([(2, true)],
        [(2, String.intercalate " "
          [spaces (render_lineinfo default_format 0 true none
            (LineInfo.from_frame wframe)).length ++ "x"] ++ "")]) ∧
    DebugPrinter.debug colr_witness_printer true [wframe] ["x"]
        ⟨none, none, 0, none, true, some "", " "⟩ =
      .ok (colr_witness_printer.setCont [(2, true)],
        [(2, spaces 2 ++ colrWrap "32" "x" ++ "")]) := by
  have h := C4_align_mode false [] [wframe] "x" []
    ⟨none, none, 0, default_format, 0, true, true, some "", " "⟩ (by decide)
    colr_witness_printer true [wframe] "x" [] ⟨none, none, 0, none, true, some "", " "⟩
    rfl (by decide) rfl rfl
  exact ⟨h.1, h.2.1⟩

/-- C6: for every mapping, when the keys are totally orderable (the
`sorted` call succeeds) `object_str` emits, for each key in sorted
order, one `key:` line at the current indent immediately followed by the
recursively formatted value at indent increased by 4; in particular
formatting the dict with keys `b`, `a` (in that insertion order) yields
the `a` key line and its indented value before the `b` key line. -/
theorem C6_dict_sorted_keys :
    (∀ (entries : List (PyVal × PyVal)) (ind : Nat) (ks : List PyVal),
      pySorted (entries.map Prod.fst) = .ok ks →
      object_str (.vdict entries) ind =
        ks.flatMap fun k =>
          (spaces ind ++ pyStr k ++ ":") :: object_str (dictGet entries k) (ind + 4)) ∧
    object_str (.vdict [(.vstr "b", .vint 2), (.vstr "a", .vint 1)]) 0 =
      ["a:", "    1", "b:", "    2"] := by
  constructor
  · intro entries ind ks hs
    rw [object_str_vdict]
    unfold sortedOrOrig
    rw [hs]
  · rw [object_str_vdict]
    have h1 : sortedOrOrig ([(PyVal.vstr "b", PyVal.vint 2), (PyVal.vstr "a", PyVal.vint 1)].map
        Prod.fst) = [PyVal.vstr "a", PyVal.vstr "b"] := rfl
    rw [h1]
    simp only [List.flatMap_cons, List.flatMap_nil]
    have h2 : dictGet [(PyVal.vstr "b", PyVal.vint 2), (PyVal.vstr "a", PyVal.vint 1)]
        (PyVal.vstr "a") = PyVal.vint 1 := rfl
    have h3 : dictGet [(PyVal.vstr "b", PyVal.vint 2), (PyVal.vstr "a", PyVal.vint 1)]
        (PyVal.vstr "b") = PyVal.vint 2 := rfl
    rw [h2, h3, object_str_vint, object_str_vint]
    rfl

/-- Witness for C6: the two-key example dict has orderable keys, whose
sort succeeds, and the general clause applies to it. -/
theorem C6_witness :
    pySorted ([(PyVal.vstr "b", PyVal.vint 2), (PyVal.vstr "a", PyVal.vint 1)].map Prod.fst) =
      .ok [PyVal.vstr "a", PyVal.vstr "b"] ∧
    object_str (.vdict [(.vstr "b", .vint 2), (.vstr "a", .vint 1)]) 0 =
      ([PyVal.vstr "a", PyVal.vstr "b"]).flatMap fun k =>
        (spaces 0 ++ pyStr k ++ ":") ::
          object_str (dictGet [(PyVal.vstr "b", PyVal.vint 2), (PyVal.vstr "a", PyVal.vint 1)] k)
            4 :=
  ⟨rfl, C6_dict_sorted_keys.1 _ 0 _ rfl⟩

/-- C7: for every non-mapping, non-string iterable, `object_str` formats
each element at the same indent as the container (element iteration does
not increase the indent, while nesting under a mapping key does), taking
the elements in sorted order when the `sorted` call succeeds; in
particular the nested dict-list example produces `x:`, then indented
`y:`, then further-indented `1` and `2`. -/
theorem C7_iterable_same_indent :
    (∀ (items : List PyVal) (ind : Nat) (its : List PyVal),
      pySorted items = .ok its →
      object_str (.vlist items) ind = its.flatMap fun it => object_str it ind) ∧
    (∀ (items : List PyVal) (ind : Nat) (its : List PyVal),
      pySorted items = .ok its →
      object_str (.vset items) ind = its.flatMap fun it => object_str it ind) ∧
    object_str (.vdict [(.vstr "x", .vdict [(.vstr "y", .vlist [.vint 1, .vint 2])])]) 0 =
      ["x:", "    y:", "        1", "        2"] := by
  refine ⟨?_, ?_, ?_⟩
  · intro items ind its hs
    rw [object_str_vlist]
    unfold sortedOrOrig
    rw [hs]
  · intro items ind its hs
    rw [object_str_vset]
    unfold sortedOrOrig
    rw [hs]
  · rw [object_str_vdict]
    have h1 : sortedOrOrig
        ([(PyVal.vstr "x", PyVal.vdict [(PyVal.vstr "y", PyVal.vlist [PyVal.vint 1,
          PyVal.vint 2])])].map Prod.fst) = [PyVal.vstr "x"] := rfl
    rw [h1]
    simp only [List.flatMap_cons, List.flatMap_nil]
    have h2 : dictGet [(PyVal.vstr "x", PyVal.vdict [(PyVal.vstr "y", PyVal.vlist [PyVal.vint 1,
        PyVal.vint 2])])] (PyVal.vstr "x") =
        PyVal.vdict [(PyVal.vstr "y", PyVal.vlist [PyVal.vint 1, PyVal.vint 2])] := rfl
    rw [h2, object_str_vdict]
    have h3 : sortedOrOrig ([(PyVal.vstr "y", PyVal.vlist [PyVal.vint 1, PyVal.vint 2])].map
        Prod.fst) = [PyVal.vstr "y"] := rfl
    rw [h3]
    simp only [List.flatMap_cons, List.flatMap_nil]
    have h4 : dictGet [(PyVal.vstr "y", PyVal.vlist [PyVal.vint 1, PyVal.vint 2])]
        (PyVal.vstr "y") = PyVal.vlist [PyVal.vint 1, PyVal.vint 2] := rfl
    rw [h4, object_str_vlist]
    have h5 : sortedOrOrig [PyVal.vint 1, PyVal.vint 2] = [PyVal.vint 1, PyVal.vint 2] := rfl
    rw [h5]
    simp only [List.flatMap_cons, List.flatMap_nil]
    rw [object_str_vint, object_str_vint]
    rfl

/-- Witness for C7: a concrete orderable list sorts and formats each
element at the container's own indent. -/
theorem C7_witness :
    pySorted [PyVal.vint 2, PyVal.vint 1] = .ok [PyVal.vint 1, PyVal.vint 2] ∧
    object_str (.vlist [.vint 2, .vint 1]) 6 =
      ([PyVal.vint 1, PyVal.vint 2]).flatMap fun it => object_str it 6 :=
  ⟨rfl, C7_iterable_same_indent.1 _ 6 _ rfl⟩

/-- C8: when the elements of a collection (or the keys of a mapping) are
mutually unorderable — the `sorted` call raises `TypeError` —
`object_str` does not propagate the error: it falls back to the original
iteration order and formats the entire structure; the mixed example with
a set and a number formats in insertion order. -/
theorem C8_unorderable_fallback :
    (∀ (items : List PyVal) (ind : Nat),
      pySorted items = .error () →
      object_str (.vlist items) ind = items.flatMap fun it => object_str it ind) ∧
    (∀ (items : List PyVal) (ind : Nat),
      pySorted items = .error () →
      object_str (.vset items) ind = items.flatMap fun it => object_str it ind) ∧
    (∀ (entries : List (PyVal × PyVal)) (ind : Nat),
      pySorted (entries.map Prod.fst) = .error () →
      object_str (.vdict entries) ind =
        (entries.map Prod.fst).flatMap fun k =>
          (spaces ind ++ pyStr k ++ ":") :: object_str (dictGet entries k) (ind + 4)) ∧
    object_str (.vlist [.vset [.vint 2], .vint 1]) 0 = ["2", "1"] := by
  refine ⟨?_, ?_, ?_, ?_⟩
  · intro items ind hs
    rw [object_str_vlist]
    unfold sortedOrOrig
    rw [hs]
  · intro items ind hs
    rw [object_str_vset]
    unfold sortedOrOrig
    rw [hs]
  · intro entries ind hs
    rw [object_str_vdict]
    unfold sortedOrOrig
    rw [hs]
  · rw [object_str_vlist]
    have h1 : sortedOrOrig [PyVal.vset [PyVal.vint 2], PyVal.vint 1] =
        [PyVal.vset [PyVal.vint 2], PyVal.vint 1] := rfl
    rw [h1]
    simp only [List.flatMap_cons, List.flatMap_nil]
    rw [object_str_vset, object_str_vint]
    have h2 : sortedOrOrig [PyVal.vint 2] = [PyVal.vint 2] := rfl
    rw [h2]
    simp only [List.flatMap_cons, List.flatMap_nil]
    rw [object_str_vint]
    rfl

/-- Witness for C8: sorting a list holding a set and a number raises the
`TypeError`, and the formatter falls back to the original order. -/
theorem C8_witness :
    pySorted [PyVal.vset [PyVal.vint 2], PyVal.vint 1] = .error () ∧
    object_str (.vlist [.vset [.vint 2], .vint 1]) 0 =
      ([PyVal.vset [PyVal.vint 2], PyVal.vint 1]).flatMap fun it => object_str it 0 :=
  ⟨rfl, C8_unorderable_fallback.1 _ 0 rfl⟩

end PrintDebug
